import Mathlib

/-!
Verification development for the Loop-Underwriter reconciliation engine.

The definitions below are a shallow embedding of the Python source:

* `transfer_hunter.py` — transfer matching, lender-position clustering,
  frequency detection, payoff scanning, revenue computation;
* `verification.py` — extraction verification and the bounded retry loop;
* `koncile_integration.py` — the statement verifier's amount tolerance;
* `openai_integration.py` — raw amount-string normalization;
* `logic_engine.py` — the income-metric credit filter.

Amounts are modelled as exact rationals (the Python code uses IEEE floats;
every constant appearing in the code and in the claims is an exact decimal,
and no claim probed here depends on binary rounding of a decimal literal).
Dates are modelled as integer day numbers; pandas `Timestamp` arithmetic on
whole days coincides with integer arithmetic.  Python strings are modelled
by Lean strings (the repository's descriptions are ASCII, where
`str.lower`/`str.strip` agree with `String.toLower`/`String.trim`).
-/

attribute [local semireducible] Rat.add Rat.mul Rat.inv Rat.sub Rat.ofScientific

namespace LoopUW

/-!
All text manipulation is performed on `List Char` (obtained from a
`String` literal's character data), mirroring Python string operations
character by character.
-/

/-- Characters of a string. -/
def chars (s : String) : List Char := s.data

/-- Python `str.lower()` for ASCII text. -/
def lowr (l : List Char) : List Char := l.map Char.toLower

/-- Python `str.strip()`: drop whitespace from both ends. -/
def trimC (l : List Char) : List Char :=
  ((l.dropWhile Char.isWhitespace).reverse.dropWhile Char.isWhitespace).reverse

/-- Contiguous-sublist test on character lists. -/
def isInfixB (n : List Char) : List Char → Bool
  | [] => n.isEmpty
  | c :: cs => n.isPrefixOf (c :: cs) || isInfixB n cs

/-- Python `needle in hay` on strings: contiguous substring test. -/
def substrB (needle : String) (hay : List Char) : Bool :=
  isInfixB (chars needle) hay

/-- Suffix test on character lists. -/
def isSuffixB (n l : List Char) : Bool :=
  n.reverse.isPrefixOf l.reverse

/-- Python `str.title()` for ASCII text: a cased character is uppercased when
the previous character is not cased, lowercased otherwise. -/
def titleGo (prevCased : Bool) : List Char → List Char
  | [] => []
  | c :: cs =>
    let cased := c.isAlpha
    let c' := if cased then (if prevCased then c.toLower else c.toUpper) else c
    c' :: titleGo cased cs

/-- Python `str.title()`. -/
def pyTitle (s : String) : String := ⟨titleGo false (chars s)⟩

/-- Python `str.split()` (split on whitespace runs, dropping empties),
accumulator holds the current word reversed. -/
def wordsGo (acc : List Char) : List Char → List (List Char)
  | [] => if acc.isEmpty then [] else [acc.reverse]
  | c :: cs =>
    if c.isWhitespace then
      if acc.isEmpty then wordsGo [] cs else acc.reverse :: wordsGo [] cs
    else
      wordsGo (c :: acc) cs

/-- Python `str.split()` with no arguments. -/
def pySplit (l : List Char) : List (List Char) :=
  wordsGo [] l

/-- `KNOWN_LENDER_KEYWORDS` from `transfer_hunter.py`. -/
def knownLenderKeywords : List String :=
  ["financing", "capital", "funding", "advance", "lending",
   "merchant", "mca", "loan", "credit", "payoff", "factor",
   "business funding", "cash advance", "working capital"]

/-- The explicit internal-transfer phrases of
`is_explicit_internal_transfer` (pattern 3). -/
def explicitPatterns : List String :=
  ["transfer between accounts",
   "internal transfer",
   "account to account transfer",
   "transfer to savings",
   "transfer from savings",
   "funds transfer internal"]

/-- Skip one-or-more whitespace (`\s+` before a letter token: maximal munch
is exact because the next literal starts with a non-space). -/
def skipWs1 : List Char → Option (List Char)
  | c :: cs => if c.isWhitespace then some (skipWs0 cs) else none
  | [] => none
where
  /-- Skip zero-or-more whitespace. -/
  skipWs0 : List Char → List Char
    | c :: cs => if c.isWhitespace then skipWs0 cs else c :: cs
    | [] => []

/-- Consume the literal word `w` at the head of the input. -/
def eatLit (w : List Char) (l : List Char) : Option (List Char) :=
  if w.isPrefixOf l then some (l.drop w.length) else none

/-- Try to match the tail of the regex
`online\s+transfer\s+from\s+chk\s*\.?\s*(\d{4})` at the head of `l`,
returning the four captured digits. -/
def chkPatAt (l : List Char) : Option (List Char) := do
  let l ← eatLit (chars "online") l
  let l ← skipWs1 l
  let l ← eatLit (chars "transfer") l
  let l ← skipWs1 l
  let l ← eatLit (chars "from") l
  let l ← skipWs1 l
  let l ← eatLit (chars "chk") l
  let l := skipWs1.skipWs0 l
  let l := match l with
    | '.' :: rest => skipWs1.skipWs0 rest
    | _ => l
  match l with
  | d1 :: d2 :: d3 :: d4 :: _ =>
    if d1.isDigit && d2.isDigit && d3.isDigit && d4.isDigit then
      some [d1, d2, d3, d4]
    else none
  | _ => none

/-- `re.search` for the pattern above: first match position wins. -/
def chkPatSearch : List Char → Option (List Char)
  | [] => none
  | c :: cs =>
    match chkPatAt (c :: cs) with
    | some ds => some ds
    | none => chkPatSearch cs

/-- `is_explicit_internal_transfer(description, known_account_numbers)` from
`transfer_hunter.py`. -/
def isExplicitInternalTransfer (description : String)
    (knownAccountNumbers : List String) : Bool :=
  if chars description = [] then false
  else
    let descLower := trimC (lowr (chars description))
    if substrB "intra-bank transfer" descLower
        || substrB "intrabank transfer" descLower then true
    else
      let pat2 :=
        match chkPatSearch descLower with
        | some last4 =>
          knownAccountNumbers.any fun acct =>
            chars acct ≠ [] && isSuffixB last4 (chars acct)
        | none => false
      if pat2 then true
      else explicitPatterns.any fun p => substrB p descLower

/-- The boilerplate business words excluded by
`is_related_entity_revenue`. -/
def businessWords : List String :=
  ["inc", "llc", "corp", "company", "enterprises", "group", "services"]

/-- `is_related_entity_revenue(sender_name, merchant_name, description)` from
`transfer_hunter.py`.  The `description` argument is unused by the source
(only the two names are compared); it is kept for signature fidelity. -/
def isRelatedEntityRevenue (senderName merchantName _description : String) :
    Bool :=
  if chars senderName = [] || chars merchantName = [] then false
  else
    let senderLower := trimC (lowr (chars senderName))
    let merchantLower := trimC (lowr (chars merchantName))
    if senderLower = merchantLower then false
    else
      let senderWords := (pySplit senderLower).filter fun w => w.length > 2
      let merchantWords := (pySplit merchantLower).filter fun w => w.length > 2
      if senderWords.isEmpty || merchantWords.isEmpty then false
      else
        senderWords.any fun w =>
          merchantWords.contains w
            && !(businessWords.any fun b => chars b = w)

/-- `is_known_lender_payment(description, amount, txn_type)` from
`transfer_hunter.py`.  `txnType = ""` models a missing/empty type field
(falsy in Python), in which case the amount sign decides direction. -/
def isKnownLenderPayment (description : String) (amount : ℚ)
    (txnType : String) : Bool :=
  if chars description = [] then false
  else
    let isDebit := if chars txnType ≠ [] then lowr (chars txnType) = chars "debit"
                   else decide (amount < 0)
    if !isDebit then false
    else
      let descLower := lowr (chars description)
      knownLenderKeywords.any fun k => substrB k descLower

/-- A normalized transaction record, the input shape consumed by
`find_inter_account_transfers` and the clustering/verification functions.
`amount` is the value after `safe_float`; `ttype` / `category` hold the
lowered `type` / `category` fields with `""` for a missing (falsy) field;
`date` is `none` for a missing/unparseable date (pandas `NaT`);
`lenderPay` is the incoming `lender_payment` flag and `isInternal` the
incoming `is_internal_transfer` flag. -/
structure Txn where
  id : ℕ
  amount : ℚ
  date : Option ℤ
  account : ℕ
  description : String
  ttype : String
  category : String
  lenderPay : Bool
  isInternal : Bool
deriving DecidableEq, Repr

/-- One output row of `find_inter_account_transfers`: the original record
plus the columns the function initializes and fills in
(`user_override` is always `False` there and is omitted). -/
structure TxnOut where
  txn : Txn
  is_internal_transfer : Bool
  matched_transfer_id : Option ℕ
  is_lender_payment : Bool
  transfer_reason : Option String
deriving DecidableEq, Repr

/-- The mutable per-id columns of the matcher together with the
`matched_ids` set, keyed by transaction id.  (The Python code addresses
rows positionally; keying by id is equivalent on inputs whose ids are
distinct, which every theorem below assumes or exhibits.) -/
structure MState where
  internal : ℕ → Bool
  matched : ℕ → Option ℕ
  reason : ℕ → Option String
  lender : ℕ → Bool
  matchedIds : List ℕ

/-- The all-clear initial state set up by the column initialization. -/
def initMState : MState :=
  { internal := fun _ => false
    matched := fun _ => none
    reason := fun _ => none
    lender := fun _ => false
    matchedIds := [] }

/-- `sort_values('transaction_date')` ordering: valid dates ascending,
missing dates (`NaT`) last. -/
def dateLE (a b : Option ℤ) : Bool :=
  match a, b with
  | some x, some y => x ≤ y
  | some _, none => true
  | none, _ => true

/-- `df.sort_values('transaction_date')` modelled as a stable sort
(insertion sort; pandas sorting of these small frames is stable in
effect, and no theorem below depends on tie order beyond stability). -/
def sortByDate (l : List Txn) : List Txn :=
  List.insertionSort (fun a b => dateLE a.date b.date = true) l

/-- One iteration of STEP 1 of `find_inter_account_transfers`: flag an
explicit internal transfer (adding its id to `matched_ids`) and a lender
payment. -/
def step1Body (known : List String) (s : MState) (t : Txn) : MState :=
  let s :=
    if isExplicitInternalTransfer t.description known then
      { s with
        internal := fun i => if i = t.id then true else s.internal i
        reason := fun i =>
          if i = t.id then some "explicit_transfer_description"
          else s.reason i
        matchedIds := t.id :: s.matchedIds }
    else s
  if isKnownLenderPayment t.description t.amount t.ttype then
    { s with lender := fun i => if i = t.id then true else s.lender i }
  else s

/-- STEP 1 of `find_inter_account_transfers`, folded over the date-sorted
rows. -/
def step1 (known : List String) (l : List Txn) (s : MState) : MState :=
  l.foldl (step1Body known) s

/-- The pandas candidate filter of STEP 2: different id, not yet matched,
different account, amount in `[-amount*0.99, -amount*1.01]` and date within
`windowDays`.  A `NaT` date on either side fails the date comparisons, as
in pandas. -/
def isCandidate (matchedIds : List ℕ) (w : ℤ) (r c : Txn) : Bool :=
  c.id ≠ r.id
    && !(matchedIds.contains c.id)
    && c.account ≠ r.account
    && (match r.date, c.date with
        | some rd, some cd =>
          decide ((-r.amount) * 0.99 ≤ c.amount)
            && decide (c.amount ≤ (-r.amount) * 1.01)
            && decide (rd - w ≤ cd) && decide (cd ≤ rd + w)
        | _, _ => false)

/-- `|date difference|` used as the sort key `date_diff`. -/
def ddiff (rd : ℤ) (c : Txn) : ℤ := |c.date.getD 0 - rd|

/-- Running first-minimum of the `date_diff` key. -/
def pickGo (rd : ℤ) (m : Txn) : List Txn → Txn
  | [] => m
  | c :: cs => if ddiff rd c < ddiff rd m then pickGo rd c cs else pickGo rd m cs

/-- `matches.sort_values('date_diff').iloc[0]`: the first candidate
attaining the minimal date difference (stable sort keeps the earlier row
on ties). -/
def pickFirstMin (rd : ℤ) : List Txn → Option Txn
  | [] => none
  | c :: cs => some (pickGo rd c cs)

/-- The body of the STEP 2 loop of `find_inter_account_transfers` for one
row `r`: skip already-matched rows; find candidates; on a best match,
either record a related-entity override, or — when one of the two
descriptions is an explicit transfer — mark the symmetric pair, else do
nothing. -/
def processRow (all : List Txn) (w : ℤ) (known : List String)
    (merchant : String) (s : MState) (r : Txn) : MState :=
  if s.matchedIds.contains r.id then s
  else
    let cands := (all.filter (isCandidate s.matchedIds w r))
    match pickFirstMin (r.date.getD 0) cands with
    | none => s
    | some best =>
      if isRelatedEntityRevenue r.description merchant r.description then
        { s with
          reason := fun i =>
            if i = r.id then some "related_entity_revenue" else s.reason i }
      else if isExplicitInternalTransfer r.description known
          || isExplicitInternalTransfer best.description known then
        { s with
          internal := fun i => if i = r.id || i = best.id then true
                               else s.internal i
          matched := fun i =>
            if i = r.id then some best.id
            else if i = best.id then some r.id
            else s.matched i
          reason := fun i =>
            if i = r.id || i = best.id then some "matched_amount_explicit"
            else s.reason i
          matchedIds := r.id :: best.id :: s.matchedIds }
      else s

/-- `find_inter_account_transfers(transactions, window_days,
known_account_numbers, merchant_name)` from `transfer_hunter.py`
(`merchant = ""` models `merchant_name=None`, for which the code
substitutes `''`). -/
def findInterAccountTransfers (txns : List Txn) (w : ℤ)
    (known : List String) (merchant : String) : List TxnOut :=
  if txns.isEmpty then []
  else
    let sorted := sortByDate txns
    let s1 := step1 known sorted initMState
    let s := sorted.foldl (processRow sorted w known merchant) s1
    sorted.map fun t =>
      { txn := t
        is_internal_transfer := s.internal t.id
        matched_transfer_id := s.matched t.id
        is_lender_payment := s.lender t.id
        transfer_reason := s.reason t.id }

/-- `calculate_revenue_excluding_transfers(transactions)` from
`transfer_hunter.py`: sum the positive amounts of rows whose
`is_internal_transfer` flag is not set.  The direction is decided by the
amount's sign alone; the `type` field is not consulted. -/
def calculateRevenueExcludingTransfers (txns : List Txn) : ℚ :=
  txns.foldl
    (fun tot t =>
      if decide (0 < t.amount) && !t.isInternal then tot + t.amount else tot)
    0

/-- The `direction` of a transaction per the spec's data model: the `type`
field is authoritative when present; otherwise the amount's sign decides.
Returns `true` for Credit. -/
def directionIsCredit (t : Txn) : Bool :=
  if lowr (chars t.ttype) = chars "credit" then true
  else if lowr (chars t.ttype) = chars "debit" then false
  else decide (0 < t.amount)

/-- Modelled from the spec (not from the source; the source has no such
function): "revenue = sum of credit amounts where
`is_internal_transfer=false`", with `direction` authoritative over the
amount sign.  Used only to compare the spec's wording against
`calculateRevenueExcludingTransfers`. -/
def revenueSpecDirection (txns : List Txn) : ℚ :=
  ((txns.filter fun t => directionIsCredit t && !t.isInternal).map
    Txn.amount).sum

/-- The credit filter of `LogicEngine.calculate_income_metrics`
(`logic_engine.py`): a row is a credit when `type == 'credit'` OR its
amount is positive, and it is not an internal transfer; `total_income`
sums the absolute amounts of these rows. -/
def logicEngineTotalIncome (txns : List Txn) : ℚ :=
  ((txns.filter fun t =>
      (chars t.ttype = chars "credit" || decide (0 < t.amount))
        && !t.isInternal).map
    fun t => |t.amount|).sum

/-- The move prefixes stripped by `extract_lender_name`. -/
def lenderBoilerplate : List String :=
  ["ach debit", "ach credit", "wire", "transfer", "payment to",
   "payment from"]

/-- `extract_lender_name(description)` from `transfer_hunter.py`. -/
def joinSpace : List (List Char) -> List Char
  | [] => []
  | [w] => w
  | w :: ws => w ++ ' ' :: joinSpace ws

/-- `extract_lender_name(description)` continued: see `joinSpace` above
for `' '.join`. -/
def extractLenderName (description : String) : String :=
  if chars description = [] then "Unknown Lender"
  else
    let descLower := trimC (lowr (chars description))
    let descLower := lenderBoilerplate.foldl
      (fun d p =>
        if (chars p).isPrefixOf d then trimC (d.drop (chars p).length) else d)
      descLower
    let significant := ((pySplit descLower).take 4).filter fun w =>
      w.length > 2
    if !significant.isEmpty then (⟨titleGo false (joinSpace significant)⟩ : String)
    else (⟨(chars description).take 30⟩ : String)

/-- Round half to even on rationals (Python's `round`). -/
def rndHalfEven (q : ℚ) : ℤ :=
  let f := ⌊q⌋
  let r := q - f
  if r < 1/2 then f
  else if 1/2 < r then f + 1
  else if f % 2 = 0 then f else f + 1

/-- Python `round(x, 2)`. -/
def round2 (q : ℚ) : ℚ := (rndHalfEven (q * 100) : ℚ) / 100

/-- An entry of a per-lender / per-merchant transaction group (the small
dicts built by `detect_lender_positions` and
`cluster_positions_by_merchant`). -/
structure CTxn where
  amount : ℚ
  date : Option ℤ
  description : String
  lenderPay : Bool
deriving DecidableEq, Repr

/-- The sort key of `detect_payment_frequency`
(`sorted(transactions, key=lambda x: x.get('date') or '')`): a missing
date becomes `''`, which sorts before every date string. -/
def dateKeyLE (a b : Option ℤ) : Bool :=
  match a, b with
  | none, _ => true
  | some _, none => false
  | some x, some y => x ≤ y

/-- The per-pair day gaps accumulated by `detect_payment_frequency`:
consecutive pairs with both dates present and a positive absolute
difference contribute that difference. -/
def dayGaps : List (Option ℤ) → List ℤ
  | a :: b :: rest =>
    (match a, b with
     | some x, some y => if 0 < |y - x| then [|y - x|] else []
     | _, _ => []) ++ dayGaps (b :: rest)
  | _ => []

/-- `detect_payment_frequency(transactions)` from `transfer_hunter.py`. -/
def detectPaymentFrequency (l : List CTxn) : String :=
  if l.length < 2 then "monthly"
  else
    let sorted := List.insertionSort (fun a b => dateKeyLE a.date b.date = true) l
    let gs := dayGaps (sorted.map CTxn.date)
    if gs.length = 0 then "monthly"
    else
      let avg : ℚ := (gs.sum : ℚ) / (gs.length : ℚ)
      if avg ≤ 2 then "daily" else if avg ≤ 10 then "weekly" else "monthly"

/-- Insert into an insertion-ordered association list of groups, appending
to an existing group's member list (Python dict + `list.append`). -/
def insertGroup {κ α : Type} [DecidableEq κ] (k : κ) (v : α) :
    List (κ × List α) → List (κ × List α)
  | [] => [(k, [v])]
  | (k', vs) :: rest =>
    if k = k' then (k', vs ++ [v]) :: rest
    else (k', vs) :: insertGroup k v rest

/-- A detected lender position (`detect_lender_positions` output row). -/
structure Position where
  lender_name : String
  amount : ℚ
  frequency : String
  monthly_payment : ℚ
  occurrence_count : ℕ
  is_stacked : Bool
  stack_count : ℕ
deriving DecidableEq, Repr

/-- The debit test and amount normalization shared by
`detect_lender_positions` and `cluster_positions_by_merchant`: the `type`
field wins when it says debit/credit, else the sign decides; debit (and
untyped) amounts are replaced by their absolute value. -/
def debitView (t : Txn) : Bool × ℚ :=
  if lowr (chars t.ttype) = chars "debit" then (true, |t.amount|)
  else if lowr (chars t.ttype) = chars "credit" then (false, t.amount)
  else (decide (t.amount < 0), |t.amount|)

/-- `detect_lender_positions(transactions, min_occurrences)` from
`transfer_hunter.py`. -/
def detectLenderPositions (txns : List Txn) (minOcc : ℕ) : List Position :=
  if txns.isEmpty then []
  else
    let lenderGroups : List (String × List CTxn) := txns.foldl
      (fun gs t =>
        let dv := debitView t
        if !dv.1 then gs
        else
          let tyArg := if lowr (chars t.ttype) ≠ [] then (⟨lowr (chars t.ttype)⟩ : String)
                       else if dv.1 then "debit" else "credit"
          if !(isKnownLenderPayment t.description dv.2 tyArg) then gs
          else
            insertGroup (extractLenderName t.description)
              (⟨dv.2, t.date, t.description, false⟩ : CTxn) gs)
      []
    lenderGroups.flatMap fun g =>
      if g.2.length < minOcc then []
      else
        let amountGroups : List (ℚ × List CTxn) :=
          g.2.foldl (fun ags c => insertGroup (round2 c.amount) c ags) []
        amountGroups.flatMap fun ag =>
          if ag.2.length < minOcc then []
          else
            let freq := detectPaymentFrequency ag.2
            let monthly : ℚ :=
              if freq = "daily" then ag.1 * 22
              else if freq = "weekly" then ag.1 * 4.33
              else ag.1
            [{ lender_name := g.1
               amount := ag.1
               frequency := freq
               monthly_payment := round2 monthly
               occurrence_count := ag.2.length
               is_stacked := amountGroups.length > 1
               stack_count := amountGroups.length }]

/-- The payoff keywords of `check_for_payoff`. -/
def payoffKeywords : List String :=
  ["payoff", "pay off", "refund", "settlement", "paid in full"]

/-- `check_for_payoff(transactions, lender_name)` from
`transfer_hunter.py`: a positive-amount transaction whose description
contains the lender name and a payoff keyword. -/
def checkForPayoff (txns : List Txn) (lenderName : String) : Bool :=
  let lenderLower := lowr (chars lenderName)
  txns.any fun t =>
    decide (0 < t.amount)
      && (let d := lowr (chars t.description)
          isInfixB lenderLower d && payoffKeywords.any fun k => substrB k d)

/-- A merchant cluster position (`cluster_positions_by_merchant` output
row). -/
structure MPosition where
  merchant : String
  amount : ℚ
  frequency : String
  monthly_payment : ℚ
  count : ℕ
  is_lender : Bool
deriving DecidableEq, Repr

/-- A greedy amount cluster: representative amount (first member's) plus
members. -/
structure ACluster where
  amount : ℚ
  members : List CTxn
deriving DecidableEq, Repr

/-- Greedy tolerance grouping: a transaction joins the first cluster whose
representative amount is within `tol`, else opens a new cluster at the
end. -/
def addToClusters (tol : ℚ) (t : CTxn) : List ACluster → List ACluster
  | [] => [⟨t.amount, [t]⟩]
  | c :: cs =>
    if |t.amount - c.amount| / max c.amount 1 ≤ tol then
      { c with members := c.members ++ [t] } :: cs
    else c :: addToClusters tol t cs

/-- `cluster_positions_by_merchant(transactions, amount_tolerance)` from
`transfer_hunter.py`. -/
def clusterPositionsByMerchant (txns : List Txn) (tol : ℚ) :
    List MPosition :=
  if txns.isEmpty then []
  else
    let merchantGroups : List (String × List CTxn) := txns.foldl
      (fun gs t =>
        let dv := debitView t
        if !dv.1 || dv.2 = 0 then gs
        else
          insertGroup (extractLenderName t.description)
            (⟨dv.2, t.date, t.description, t.lenderPay⟩ : CTxn) gs)
      []
    merchantGroups.flatMap fun g =>
      if g.2.length < 2 then []
      else
        let clusters := g.2.foldl (fun cs c => addToClusters tol c cs) []
        clusters.flatMap fun c =>
          if c.members.length < 2 then []
          else
            let freq := detectPaymentFrequency c.members
            let monthly : ℚ :=
              if freq = "daily" then c.amount * 22
              else if freq = "weekly" then c.amount * 4.33
              else c.amount
            [{ merchant := g.1
               amount := round2 c.amount
               frequency := freq
               monthly_payment := round2 monthly
               count := c.members.length
               is_lender := c.members.any CTxn.lenderPay }]

/-- A claimed summary field value: a number, the literal
`"not_computable"` marker, or absent (`None`). -/
inductive FVal
  | num (q : ℚ)
  | notComputable
  | missing
deriving DecidableEq, Repr

/-- `safe_float` (`verification.py`) restricted to the modelled value
domain: numbers pass through, the `"not_computable"` marker and `None`
default to `0`. -/
def safeFloatV : FVal → ℚ
  | .num q => q
  | .notComputable => 0
  | .missing => 0

/-- `is_not_computable(value)` from `verification.py`. -/
def isNotComputable : FVal → Bool
  | .notComputable => true
  | _ => false

/-- The `info_needed` fields read by `verify_extraction_math`. -/
structure ClaimedInfo where
  average_monthly_income : FVal
  annual_income : FVal
  total_monthly_payments : FVal
deriving DecidableEq, Repr

/-- The extracted-data fields read by `verify_extraction_math`
(`daily_positions` enters only through its length). -/
structure ClaimedData where
  info : ClaimedInfo
  revenues_last_4_months : FVal
  daily_positions_count : ℕ
deriving DecidableEq, Repr

/-- The distinct error messages `verify_extraction_math` can append
(message text elided, one constructor per append site). -/
inductive VErr
  | incomeInsufficiency
  | annualInsufficiency
  | paymentsZero
  | paymentsMismatch
  | revenueMismatch
  | positionsMissed
  | tooFewTxns
deriving DecidableEq, Repr

/-- `analyze_transaction_types(transactions)` (`verification.py`):
`(credit_count, debit_count)` with the `type` field preferred over the
amount sign. -/
def analyzeTransactionTypes (txns : List Txn) : ℕ × ℕ :=
  txns.foldl
    (fun cd t =>
      if lowr (chars t.ttype) = chars "credit" then (cd.1 + 1, cd.2)
      else if lowr (chars t.ttype) = chars "debit" then (cd.1, cd.2 + 1)
      else if 0 < t.amount then (cd.1 + 1, cd.2)
      else if t.amount < 0 then (cd.1, cd.2 + 1)
      else cd)
    (0, 0)

/-- `is_debit_only` of the type analysis. -/
def isDebitOnly (txns : List Txn) : Bool :=
  let cd := analyzeTransactionTypes txns
  0 < cd.2 && cd.1 = 0

/-- `has_both` of the type analysis. -/
def hasBothTypes (txns : List Txn) : Bool :=
  let cd := analyzeTransactionTypes txns
  0 < cd.1 && 0 < cd.2

/-- `is_payment_category_debit(txn)` from `transfer_hunter.py`. -/
def isPaymentCategoryDebit (t : Txn) : Bool :=
  let c := lowr (chars t.category)
  let isDebit :=
    if lowr (chars t.ttype) = chars "debit" then true
    else if lowr (chars t.ttype) = chars "credit" then false
    else decide (t.amount < 0)
  (isDebit && (c = chars "payment" || c = chars "debit" || c = chars "withdrawal"))
    || (isDebit && t.lenderPay)

/-- `calculate_payment_total_from_type_field(transactions)` from
`verification.py`. -/
def calculatePaymentTotal (txns : List Txn) : ℚ :=
  txns.foldl
    (fun tot t => if isPaymentCategoryDebit t then tot + |t.amount| else tot)
    0

/-- VALIDATION 1 of `verify_extraction_math`: for a debit-only dataset,
claiming a positive numeric income metric (instead of the
`"not_computable"` marker) is a data-insufficiency discrepancy. -/
def v1Errs (ed : ClaimedData) (txns : List Txn) : List VErr :=
  if isDebitOnly txns then
    (if 0 < safeFloatV ed.info.average_monthly_income
        && !isNotComputable ed.info.average_monthly_income then
      [VErr.incomeInsufficiency]
    else [])
      ++ (if 0 < safeFloatV ed.info.annual_income
          && !isNotComputable ed.info.annual_income then
        [VErr.annualInsufficiency]
      else [])
  else []

/-- VALIDATION 2 of `verify_extraction_math`: the claimed
`total_monthly_payments` against the computed payment-category total,
with a 5% tolerance relative to `max(claimed, computed, 1)`. -/
def v2Errs (ed : ClaimedData) (txns : List Txn) : List VErr :=
  let calculatedPayments := calculatePaymentTotal txns
  let extractedPayments := safeFloatV ed.info.total_monthly_payments
  if extractedPayments = 0 && 0 < calculatedPayments then
    [VErr.paymentsZero]
  else if 0 < extractedPayments then
    let diff := |calculatedPayments - extractedPayments|
    let pct := diff / max extractedPayments (max calculatedPayments 1)
    if 1/20 < pct then [VErr.paymentsMismatch] else []
  else []

/-- VALIDATION 3 of `verify_extraction_math`: revenue (or 4× average
income) against the credit total excluding internal transfers. -/
def v3Errs (ed : ClaimedData) (txns : List Txn) : List VErr :=
  if hasBothTypes txns || !isDebitOnly txns then
    if !isNotComputable ed.info.average_monthly_income then
      let extractedAvg := safeFloatV ed.info.average_monthly_income
      let r0 := safeFloatV ed.revenues_last_4_months
      let extractedRevenue :=
        if r0 = 0 && 0 < extractedAvg then extractedAvg * 4 else r0
      if 0 < extractedRevenue then
        let diff := |calculateRevenueExcludingTransfers txns - extractedRevenue|
        let pct := diff / extractedRevenue
        if 1/20 < pct then [VErr.revenueMismatch] else []
      else []
    else []
  else []

/-- VALIDATION 4 of `verify_extraction_math`: zero claimed daily
positions against detected daily clusters. -/
def v4Errs (ed : ClaimedData) (txns : List Txn) : List VErr :=
  if ed.daily_positions_count = 0 && 5 ≤ (analyzeTransactionTypes txns).2 then
    let clusters := clusterPositionsByMerchant txns (3/100)
    if (clusters.filter fun c => c.frequency = "daily").length > 0 then
      [VErr.positionsMissed]
    else []
  else []

/-- VALIDATION 5 of `verify_extraction_math`: fewer than two listed
transactions. -/
def v5Errs (txns : List Txn) : List VErr :=
  if txns.length < 2 then [VErr.tooFewTxns] else []

/-- `verify_extraction_math(extracted_data, transactions)` from
`verification.py`, returning `(is_valid, errors)`.  The five validation
blocks append in source order; `is_valid` is "errors empty".  The source
raises nothing on any path modelled here (every branch is total). -/
def verifyExtractionMath (ed : ClaimedData) (txns : List Txn) :
    Bool × List VErr :=
  if txns.isEmpty then (true, [])
  else
    let errs := v1Errs ed txns ++ v2Errs ed txns ++ v3Errs ed txns
      ++ v4Errs ed txns ++ v5Errs txns
    (errs.isEmpty, errs)

/-- `StatementVerifier._amounts_match(amount1, amount2)` from
`koncile_integration.py`: `$1` absolute or `1%` of the second amount. -/
def amountsMatch (a1 a2 : ℚ) : Bool :=
  if a2 = 0 then |a1| ≤ 1
  else |a1 - a2| ≤ 1 || |a1 - a2| / |a2| ≤ 1/100

/-- The retry loop of `auto_retry_extraction_with_verification`
(`verification.py`).  `verify k` is the verification outcome of the
`k`-th (0-based) extraction attempt — the extraction collaborator is
external to the repository.  `budget` is `max_retries - retry_count`
(a failing attempt continues exactly while the incremented retry count
stays within `max_retries`).  Returns
`(extraction attempts performed, final retry_count, final_status)`. -/
def autoRetryGo (verify : ℕ → Bool) : ℕ → ℕ → ℕ → ℕ × ℕ × String
  | budget, k, rc =>
    if verify k then (1, rc, "Pending Approval")
    else
      match budget with
      | 0 => (1, rc + 1, "Needs Human Review")
      | b + 1 =>
        let r := autoRetryGo verify b (k + 1) (rc + 1)
        (r.1 + 1, r.2.1, r.2.2)

/-- `auto_retry_extraction_with_verification` with `max_retries`
attempts budget. -/
def autoRetryExtraction (maxRetries : ℕ) (verify : ℕ → Bool) :
    ℕ × ℕ × String :=
  autoRetryGo verify maxRetries 0 0

/-- Digit-string value. -/
def digitsVal (l : List Char) : ℕ :=
  l.foldl (fun a c => a * 10 + (c.toNat - 48)) 0

/-- Python `float()` on the cleaned strings reachable in
`validate_and_sanitize_transactions`: an optional sign followed by digits
with at most one decimal point and at least one digit.  (Exponent/`inf`
forms never arise from the cleaning pipeline's character set.) -/
def parseFloatQ (l : List Char) : Option ℚ :=
  let (neg, l) := match l with
    | '-' :: rest => (true, rest)
    | '+' :: rest => (false, rest)
    | _ => (false, l)
  if !(l.all fun c => c.isDigit || c = '.') then none
  else
    let v : Option ℚ :=
      match l.splitOn '.' with
      | [ip] => if ip.isEmpty then none else some (digitsVal ip)
      | [ip, fp] =>
        if ip.isEmpty && fp.isEmpty then none
        else some ((digitsVal ip : ℚ) + (digitsVal fp : ℚ) / (10 ^ fp.length))
      | _ => none
    v.map fun q => if neg then -q else q

/-- Index of the last occurrence of `c` (Python `str.rindex`); only called
when `c` occurs. -/
def lastIdxOf (c : Char) (l : List Char) : ℕ :=
  l.length - 1 - l.reverse.indexOf c

/-- The amount branch of `validate_and_sanitize_transactions`
(`openai_integration.py`) for string amounts: strip, handle `(...)`,
trailing and leading minus, drop currency symbols and (non-breaking)
spaces, resolve comma/period as thousands vs decimal separators, then
parse; any failure yields `0`. -/
def sanitizeAmount (raw : String) : ℚ :=
  let l := trimC (chars raw)
  let (neg1, l) :=
    match l with
    | '(' :: rest =>
      if rest ≠ [] && rest.getLast? = some ')' then (true, rest.dropLast)
      else (false, '(' :: rest)
    | _ => (false, l)
  let (neg2, l) :=
    if l.getLast? = some '-' then (true, l.dropLast) else (false, l)
  let (neg3, l) :=
    match l with
    | '-' :: rest => (true, rest)
    | _ => (false, l)
  let neg := neg1 || neg2 || neg3
  let l := l.filter fun c => c ≠ '$' && c ≠ '€' && c ≠ '£'
  let l := l.filter fun c => c ≠ ' ' && c ≠ ' ' && c ≠ ' '
  let hasComma := l.contains ','
  let hasPeriod := l.contains '.'
  let l :=
    if hasComma && hasPeriod then
      if lastIdxOf '.' l < lastIdxOf ',' l then
        (l.filter fun c => c ≠ '.').map fun c => if c = ',' then '.' else c
      else l.filter fun c => c ≠ ','
    else if hasComma then
      if l.count ',' = 1 then
        let afterComma := l.length - 1 - lastIdxOf ',' l
        if afterComma ≤ 2 then l.map fun c => if c = ',' then '.' else c
        else l.filter fun c => c ≠ ','
      else l.filter fun c => c ≠ ','
    else if hasPeriod then
      if l.count '.' = 1 then l else l.filter fun c => c ≠ '.'
    else l
  if l.isEmpty then 0
  else
    match parseFloatQ l with
    | some q => if neg then -q else q
    | none => 0

/-- A verifier that fails every attempt. -/
def alwaysFail : ℕ → Bool := fun _ => false

/-- A verifier that passes every attempt. -/
def alwaysPass : ℕ → Bool := fun _ => true

/-- All dated entries of a cluster fall on one day (entries without a date
are ignored). -/
def sameDatedDay (l : List CTxn) : Bool :=
  match l.filterMap CTxn.date with
  | [] => true
  | d :: ds => ds.all fun x => x = d

/-- Well-formedness of the matcher's output relation: every set
`matched_transfer_id` points at rows that point back and are flagged
internal (as is the pointing row), and no row is pointed at by more than
one row. -/
def wellFormedMatches (out : List TxnOut) : Bool :=
  out.all
    (fun a =>
      match a.matched_transfer_id with
      | none => true
      | some j =>
        a.is_internal_transfer
          && (out.filter fun b => b.txn.id = j).all fun b =>
            b.matched_transfer_id == some a.txn.id && b.is_internal_transfer)
    && out.all fun c =>
      (out.filter fun a => a.matched_transfer_id == some c.txn.id).length ≤ 1

/-- Symmetry invariant on the matcher state: every recorded match is
mutual, both sides are flagged internal, and both ids sit in the
matched-id pool (so later iterations cannot touch them). -/
def SymOK (s : MState) : Prop :=
  ∀ i j, s.matched i = some j →
    s.matched j = some i ∧ s.internal i = true ∧ s.internal j = true
      ∧ i ∈ s.matchedIds ∧ j ∈ s.matchedIds

/-- Invariant driving the dead-branch analysis of STEP 2: no match has
been recorded, every explicit-description row of the frame is already in
the matched-id pool, and only the two reachable reason strings occur. -/
def Step2Inv (all : List Txn) (known : List String) (s : MState) : Prop :=
  (∀ i, s.matched i = none)
    ∧ (∀ t ∈ all, isExplicitInternalTransfer t.description known = true →
        t.id ∈ s.matchedIds)
    ∧ (∀ i, s.reason i = none
        ∨ s.reason i = some "explicit_transfer_description"
        ∨ s.reason i = some "related_entity_revenue")

/-- A debit with a plain description (C1's unmatched pair). -/
def c1TxnA : Txn :=
  { id := 1, amount := -100, date := some 0, account := 1,
    description := "office rent", ttype := "debit", category := "payment",
    lenderPay := false, isInternal := false }

/-- A same-magnitude credit on another account, same day, plain
description. -/
def c1TxnB : Txn :=
  { id := 2, amount := 100, date := some 0, account := 2,
    description := "client payment", ttype := "credit",
    category := "income", lenderPay := false, isInternal := false }

/-- An `Acme Capital` debit of the given amount on day `d`. -/
def c2Debit (i : ℕ) (amt : ℚ) (d : ℤ) : Txn :=
  { id := i, amount := amt, date := some d, account := 1,
    description := "ACH Debit Acme Capital", ttype := "debit",
    category := "payment", lenderPay := false, isInternal := false }

/-- A credit whose description names the lender plus a payoff keyword. -/
def c2PayoffCredit : Txn :=
  { id := 9, amount := 5000, date := some 10, account := 1,
    description := "Acme Capital Payoff received", ttype := "credit",
    category := "income", lenderPay := false, isInternal := false }

/-- Two disjoint amount clusters (2×$100, 2×$200) for one lender, no
payoff credit. -/
def c2NoPayoff : List Txn :=
  [c2Debit 1 100 0, c2Debit 2 100 1, c2Debit 3 200 2, c2Debit 4 200 3]

/-- The same clusters plus a payoff credit for the lender. -/
def c2WithPayoff : List Txn := c2NoPayoff ++ [c2PayoffCredit]

/-- A payment-category debit of the given amount. -/
def payDebit (i : ℕ) (amt : ℚ) : Txn :=
  { id := i, amount := amt, date := some (i : ℤ), account := 1,
    description := "Vendor Pay", ttype := "debit", category := "payment",
    lenderPay := false, isInternal := false }

/-- A claimed summary with `total_monthly_payments = $10,000` and income
fields marked not computable. -/
def c3Claimed : ClaimedData :=
  { info := { average_monthly_income := .notComputable,
              annual_income := .notComputable,
              total_monthly_payments := .num 10000 },
    revenues_last_4_months := .missing, daily_positions_count := 0 }

/-- Payment debits computing to $10,499. -/
def c3Txns10499 : List Txn := [payDebit 1 10000, payDebit 2 499]

/-- Payment debits computing to $10,501. -/
def c3Txns10501 : List Txn := [payDebit 1 10000, payDebit 2 501]

/-- A positive-amount transaction whose `type` field says debit. -/
def c4Txn : Txn :=
  { id := 1, amount := 100, date := some 0, account := 1,
    description := "misc", ttype := "debit", category := "payment",
    lenderPay := false, isInternal := false }

/-- An `XYZ Capital` $500 debit on day `d`. -/
def c8Debit (i : ℕ) (d : ℤ) : Txn :=
  { id := i, amount := 500, date := some d, account := 1,
    description := "XYZ Capital", ttype := "debit", category := "payment",
    lenderPay := false, isInternal := false }

/-- Seven $500 `XYZ Capital` debits on seven consecutive business days;
`k` places the single weekend jump (gap of 3 days) between days `k` and
`k+1`, covering every possible starting weekday. -/
def c8Txns (k : Fin 6) : List Txn :=
  (List.range 7).map fun i =>
    c8Debit (i + 1) ((i : ℤ) + if (k : ℕ) < i then 2 else 0)

/-- The single expected position for the C8 input. -/
def c8Pos : Position :=
  { lender_name := "Xyz Capital", amount := 500, frequency := "daily",
    monthly_payment := 11000, occurrence_count := 7, is_stacked := false,
    stack_count := 1 }

/-- A debit-only transaction list (two payment debits). -/
def c9Txns : List Txn := [payDebit 1 10000, payDebit 2 501]

/-- A claimed summary reporting a positive numeric income on debit-only
data. -/
def c9Claimed : ClaimedData :=
  { info := { average_monthly_income := .num 5000,
              annual_income := .notComputable,
              total_monthly_payments := .num 10501 },
    revenues_last_4_months := .missing, daily_positions_count := 0 }

/-- Three same-day $75 entries (C10's witness cluster). -/
def c10Cluster : List CTxn :=
  [⟨75, some 5, "a", false⟩, ⟨75, some 5, "b", false⟩,
   ⟨75, some 5, "c", false⟩]

/-- Two explicit-description transactions on different accounts with
distinct ids (C5's witness input). -/
def c5Txns : List Txn :=
  [{ id := 1, amount := -250, date := some 0, account := 1,
     description := "internal transfer to savings", ttype := "debit",
     category := "transfer", lenderPay := false, isInternal := false },
   { id := 2, amount := 250, date := some 1, account := 2,
     description := "internal transfer from checking", ttype := "credit",
     category := "transfer", lenderPay := false, isInternal := false }]

end LoopUW

namespace LoopUW

/-! ### Generic fold and list lemmas -/

theorem foldl_preserve {α σ : Type} (f : σ → α → σ) (P : σ → Prop) :
    ∀ l : List α, (∀ s, ∀ x ∈ l, P s → P (f s x)) → ∀ s, P s → P (l.foldl f s) := by
  intro l
  induction l with
  | nil => intro _ s h; exact h
  | cons x xs ih =>
    intro hstep s h
    exact ih (fun s' y hy h' => hstep s' y (List.mem_cons_of_mem x hy) h') _
      (hstep s x (List.mem_cons_self x xs) h)

theorem filter_len_le_one {γ β : Type} [DecidableEq β] (f : γ → β) (p : γ → Bool) :
    ∀ l : List γ, (l.map f).Nodup →
      (∀ x ∈ l, ∀ y ∈ l, p x = true → p y = true → f x = f y) →
      (l.filter p).length ≤ 1 := by
  intro l
  induction l with
  | nil => intro _ _; simp
  | cons x xs ih =>
    intro hnd hp
    rw [List.filter_cons]
    by_cases hpx : p x = true
    · rw [if_pos hpx]
      have hempty : xs.filter p = [] := by
        rw [List.eq_nil_iff_forall_not_mem]
        intro y hy
        have hyx := List.mem_filter.mp hy
        have hfy : f y = f x :=
          hp y (List.mem_cons_of_mem _ hyx.1) x (List.mem_cons_self _ _) hyx.2 hpx
        rw [List.map_cons, List.nodup_cons] at hnd
        exact hnd.1 (hfy ▸ List.mem_map_of_mem f hyx.1)
      rw [hempty]
      simp
    · rw [if_neg hpx]
      rw [List.map_cons, List.nodup_cons] at hnd
      exact ih hnd.2 fun a ha b hb hpa hpb =>
        hp a (List.mem_cons_of_mem _ ha) b (List.mem_cons_of_mem _ hb) hpa hpb

/-! ### Facts about STEP 1 of the Transfer Matcher -/

theorem step1Body_matched (known : List String) (s : MState) (t : Txn) :
    (step1Body known s t).matched = s.matched := by
  unfold step1Body
  dsimp only
  split <;> split <;> rfl

theorem step1_matched (known : List String) :
    ∀ (l : List Txn) (s : MState), (step1 known l s).matched = s.matched := by
  intro l
  induction l with
  | nil => intro s; rfl
  | cons t ts ih =>
    intro s
    show (step1 known ts (step1Body known s t)).matched = s.matched
    rw [ih, step1Body_matched]

theorem step1Body_mids_sub (known : List String) (s : MState) (t : Txn) :
    s.matchedIds ⊆ (step1Body known s t).matchedIds := by
  unfold step1Body
  dsimp only
  split <;> split
  all_goals
    first
    | exact fun x hx => List.mem_cons_of_mem _ hx
    | exact fun x hx => hx

theorem step1_mids_sub (known : List String) :
    ∀ (l : List Txn) (s : MState),
      s.matchedIds ⊆ (step1 known l s).matchedIds := by
  intro l
  induction l with
  | nil => intro s; exact fun x hx => hx
  | cons t ts ih =>
    intro s
    exact fun x hx => ih (step1Body known s t) (step1Body_mids_sub known s t hx)

theorem step1Body_explicit (known : List String) (s : MState) (t : Txn)
    (h : isExplicitInternalTransfer t.description known = true) :
    t.id ∈ (step1Body known s t).matchedIds := by
  unfold step1Body
  dsimp only
  rw [if_pos h]
  split
  · exact List.mem_cons_self _ _
  · exact List.mem_cons_self _ _

theorem step1_explicit (known : List String) :
    ∀ (l : List Txn) (s : MState), ∀ t ∈ l,
      isExplicitInternalTransfer t.description known = true →
      t.id ∈ (step1 known l s).matchedIds := by
  intro l
  induction l with
  | nil => intro s t ht; cases ht
  | cons u us ih =>
    intro s t ht hex
    rcases List.mem_cons.mp ht with rfl | ht'
    · exact step1_mids_sub known us _ (step1Body_explicit known s t hex)
    · exact ih _ t ht' hex

theorem step1Body_reason (known : List String) (s : MState) (t : Txn) :
    ∀ i, (step1Body known s t).reason i = s.reason i
      ∨ (step1Body known s t).reason i = some "explicit_transfer_description" := by
  intro i
  unfold step1Body
  dsimp only
  split <;> split
  · by_cases hi : i = t.id
    · exact Or.inr (by simp [hi])
    · exact Or.inl (by simp [hi])
  · exact Or.inl rfl
  · by_cases hi : i = t.id
    · exact Or.inr (by simp [hi])
    · exact Or.inl (by simp [hi])
  · exact Or.inl rfl

theorem step1_reason (known : List String) :
    ∀ (l : List Txn) (s : MState), ∀ i,
      (step1 known l s).reason i = s.reason i
        ∨ (step1 known l s).reason i = some "explicit_transfer_description" := by
  intro l
  induction l with
  | nil => intro s i; exact Or.inl rfl
  | cons t ts ih =>
    intro s i
    rcases ih (step1Body known s t) i with h | h
    · rcases step1Body_reason known s t i with h' | h'
      · exact Or.inl (h.trans h')
      · exact Or.inr (h.trans h')
    · exact Or.inr h

theorem step1_inv (known : List String) (l : List Txn) :
    Step2Inv l known (step1 known l initMState) := by
  refine ⟨?_, ?_, ?_⟩
  · intro i
    rw [step1_matched]
    rfl
  · intro t ht hext
    exact step1_explicit known l initMState t ht hext
  · intro i
    rcases step1_reason known l initMState i with h | h
    · exact Or.inl h
    · exact Or.inr (Or.inl h)

/-! ### Facts about STEP 2 of the Transfer Matcher -/

theorem pickGo_mem (rd : ℤ) : ∀ (l : List Txn) (m : Txn), pickGo rd m l ∈ m :: l := by
  intro l
  induction l with
  | nil => intro m; simp [pickGo]
  | cons c cs ih =>
    intro m
    unfold pickGo
    split
    · rcases List.mem_cons.mp (ih c) with h | h
      · rw [h]; simp
      · exact List.mem_cons_of_mem _ (List.mem_cons_of_mem _ h)
    · rcases List.mem_cons.mp (ih m) with h | h
      · rw [h]; exact List.mem_cons_self _ _
      · exact List.mem_cons_of_mem _ (List.mem_cons_of_mem _ h)

theorem pickFirstMin_mem {rd : ℤ} {l : List Txn} {b : Txn}
    (h : pickFirstMin rd l = some b) : b ∈ l := by
  cases l with
  | nil => cases h
  | cons c cs =>
    have hb : b = pickGo rd c cs := by
      have hh : some (pickGo rd c cs) = some b := h
      exact (Option.some.inj hh).symm
    rw [hb]
    exact pickGo_mem rd cs c

theorem isCandidate_facts {mids : List ℕ} {w : ℤ} {r c : Txn}
    (h : isCandidate mids w r c = true) :
    c.id ≠ r.id ∧ c.id ∉ mids := by
  unfold isCandidate at h
  simp only [Bool.and_eq_true, decide_eq_true_eq, Bool.not_eq_true'] at h
  refine ⟨h.1.1.1, ?_⟩
  have h2 := h.1.1.2
  simp at h2
  exact h2

theorem processRow_symOK (all : List Txn) (w : ℤ) (known : List String)
    (merchant : String) (s : MState) (r : Txn) (h : SymOK s) :
    SymOK (processRow all w known merchant s r) := by
  by_cases hskip : s.matchedIds.contains r.id = true
  · unfold processRow
    rw [if_pos hskip]
    exact h
  · unfold processRow
    rw [if_neg hskip]
    dsimp only
    cases hpick : pickFirstMin (r.date.getD 0)
        (all.filter (isCandidate s.matchedIds w r)) with
    | none => exact h
    | some best =>
      dsimp only
      by_cases hrel :
          isRelatedEntityRevenue r.description merchant r.description = true
      · rw [if_pos hrel]
        intro i j hij
        exact h i j hij
      · rw [if_neg hrel]
        by_cases hexp : (isExplicitInternalTransfer r.description known
            || isExplicitInternalTransfer best.description known) = true
        · rw [if_pos hexp]
          have hbmem := pickFirstMin_mem hpick
          have hbf := List.mem_filter.mp hbmem
          obtain ⟨hbne, hbnot⟩ := isCandidate_facts hbf.2
          have hrnot : r.id ∉ s.matchedIds := by simpa using hskip
          intro i j hij
          dsimp only at hij ⊢
          by_cases hir : i = r.id
          · subst hir
            rw [if_pos rfl] at hij
            have hj : j = best.id := (Option.some.inj hij).symm
            subst hj
            refine ⟨?_, ?_, ?_, ?_, ?_⟩
            · simp [hbne]
            · simp
            · simp
            · simp
            · simp
          · by_cases hib : i = best.id
            · subst hib
              rw [if_neg hir, if_pos rfl] at hij
              have hj : j = r.id := (Option.some.inj hij).symm
              subst hj
              refine ⟨?_, ?_, ?_, ?_, ?_⟩
              · simp
              · simp
              · simp
              · simp
              · simp
            · rw [if_neg hir, if_neg hib] at hij
              obtain ⟨hm, hi1, hj1, hiM, hjM⟩ := h i j hij
              have hjr : j ≠ r.id := fun hh => hrnot (hh ▸ hjM)
              have hjb : j ≠ best.id := fun hh => hbnot (hh ▸ hjM)
              refine ⟨?_, ?_, ?_, ?_, ?_⟩
              · rw [if_neg hjr, if_neg hjb]; exact hm
              · simp [hir, hib, hi1]
              · simp [hjr, hjb, hj1]
              · exact List.mem_cons_of_mem _ (List.mem_cons_of_mem _ hiM)
              · exact List.mem_cons_of_mem _ (List.mem_cons_of_mem _ hjM)
        · rw [if_neg hexp]
          exact h

theorem processRow_step2Inv (all : List Txn) (w : ℤ) (known : List String)
    (merchant : String) (s : MState) (r : Txn) (hr : r ∈ all)
    (h : Step2Inv all known s) :
    Step2Inv all known (processRow all w known merchant s r) := by
  obtain ⟨h1, h2, h3⟩ := h
  by_cases hskip : s.matchedIds.contains r.id = true
  · unfold processRow
    rw [if_pos hskip]
    exact ⟨h1, h2, h3⟩
  · unfold processRow
    rw [if_neg hskip]
    dsimp only
    cases hpick : pickFirstMin (r.date.getD 0)
        (all.filter (isCandidate s.matchedIds w r)) with
    | none => exact ⟨h1, h2, h3⟩
    | some best =>
      dsimp only
      have hbmem := pickFirstMin_mem hpick
      have hbf := List.mem_filter.mp hbmem
      obtain ⟨hbne, hbnot⟩ := isCandidate_facts hbf.2
      have hrnot : r.id ∉ s.matchedIds := by simpa using hskip
      have hre : isExplicitInternalTransfer r.description known = false := by
        by_contra hx
        rw [Bool.not_eq_false] at hx
        exact hrnot (h2 r hr hx)
      have hbe : isExplicitInternalTransfer best.description known = false := by
        by_contra hx
        rw [Bool.not_eq_false] at hx
        exact hbnot (h2 best hbf.1 hx)
      by_cases hrel :
          isRelatedEntityRevenue r.description merchant r.description = true
      · rw [if_pos hrel]
        refine ⟨h1, h2, fun i => ?_⟩
        dsimp only
        by_cases hi : i = r.id
        · rw [if_pos hi]
          right; right; rfl
        · rw [if_neg hi]
          exact h3 i
      · rw [if_neg hrel, hre, hbe]
        simp only [Bool.or_self, Bool.false_eq_true, if_false]
        exact ⟨h1, h2, h3⟩

theorem wellFormed_of_symOK (l : List Txn) (s : MState)
    (hsym : SymOK s) (hnd : (l.map Txn.id).Nodup) :
    wellFormedMatches (l.map fun t =>
      ({ txn := t, is_internal_transfer := s.internal t.id,
         matched_transfer_id := s.matched t.id,
         is_lender_payment := s.lender t.id,
         transfer_reason := s.reason t.id } : TxnOut)) = true := by
  unfold wellFormedMatches
  rw [Bool.and_eq_true]
  constructor
  · rw [List.all_eq_true]
    intro a ha
    rcases List.mem_map.mp ha with ⟨t, ht, rfl⟩
    dsimp only
    cases hm : s.matched t.id with
    | none => rfl
    | some j =>
      obtain ⟨hmj, hit, hjt, -, -⟩ := hsym t.id j hm
      rw [Bool.and_eq_true]
      refine ⟨hit, ?_⟩
      rw [List.all_eq_true]
      intro b hb
      have hbf := List.mem_filter.mp hb
      rcases List.mem_map.mp hbf.1 with ⟨u, hu, rfl⟩
      have hbid : u.id = j := by simpa using hbf.2
      rw [Bool.and_eq_true]
      constructor
      · simp [hbid, hmj]
      · simpa [hbid] using hjt
  · rw [List.all_eq_true]
    intro c hc
    rcases List.mem_map.mp hc with ⟨tc, htc, rfl⟩
    rw [decide_eq_true_eq]
    apply filter_len_le_one (fun o => o.txn.id)
    · rw [List.map_map]
      exact hnd
    · intro a ha b hb hpa hpb
      rcases List.mem_map.mp ha with ⟨ta, hta, rfl⟩
      rcases List.mem_map.mp hb with ⟨tb, htb, rfl⟩
      have hma : s.matched ta.id = some tc.id := by simpa using hpa
      have hmb : s.matched tb.id = some tc.id := by simpa using hpb
      obtain ⟨hca, -, -, -, -⟩ := hsym ta.id tc.id hma
      obtain ⟨hcb, -, -, -, -⟩ := hsym tb.id tc.id hmb
      have hab : some ta.id = some tb.id := hca.symm.trans hcb
      simpa using hab

end LoopUW

namespace LoopUW

/-! ### Facts about the verifier blocks -/

theorem mem_v1_sub (ed : ClaimedData) (txns : List Txn) :
    ∀ e ∈ v1Errs ed txns, e = VErr.incomeInsufficiency ∨ e = VErr.annualInsufficiency := by
  intro e he
  unfold v1Errs at he
  repeat' split at he
  all_goals simp_all

theorem mem_v2_sub (ed : ClaimedData) (txns : List Txn) :
    ∀ e ∈ v2Errs ed txns, e = VErr.paymentsZero ∨ e = VErr.paymentsMismatch := by
  intro e he
  unfold v2Errs at he
  dsimp only at he
  repeat' split at he
  all_goals simp_all

theorem mem_v3_sub (ed : ClaimedData) (txns : List Txn) :
    ∀ e ∈ v3Errs ed txns, e = VErr.revenueMismatch := by
  intro e he
  unfold v3Errs at he
  dsimp only at he
  repeat' split at he
  all_goals simp_all

theorem mem_v4_sub (ed : ClaimedData) (txns : List Txn) :
    ∀ e ∈ v4Errs ed txns, e = VErr.positionsMissed := by
  intro e he
  unfold v4Errs at he
  dsimp only at he
  repeat' split at he
  all_goals simp_all

theorem mem_v5_sub (txns : List Txn) :
    ∀ e ∈ v5Errs txns, e = VErr.tooFewTxns := by
  intro e he
  unfold v5Errs at he
  repeat' split at he
  all_goals simp_all

theorem paymentsMismatch_v2_iff (ed : ClaimedData) (txns : List Txn)
    (h : 0 < safeFloatV ed.info.total_monthly_payments) :
    VErr.paymentsMismatch ∈ v2Errs ed txns ↔
      1/20 < |calculatePaymentTotal txns - safeFloatV ed.info.total_monthly_payments|
        / max (safeFloatV ed.info.total_monthly_payments)
            (max (calculatePaymentTotal txns) 1) := by
  unfold v2Errs
  dsimp only
  rw [if_neg (by simp [h.ne']), if_pos h]
  by_cases hc : 1/20 < |calculatePaymentTotal txns - safeFloatV ed.info.total_monthly_payments|
      / max (safeFloatV ed.info.total_monthly_payments) (max (calculatePaymentTotal txns) 1)
  · simp [hc]
  · simp [hc]

theorem debitOnly_not_nil {txns : List Txn} (h : isDebitOnly txns = true) :
    txns.isEmpty = false := by
  cases txns with
  | nil => simp [isDebitOnly, analyzeTransactionTypes] at h
  | cons _ _ => rfl

theorem incomeInsufficiency_in_v1 (ed : ClaimedData) (txns : List Txn)
    (h1 : isDebitOnly txns = true)
    (h2 : 0 < safeFloatV ed.info.average_monthly_income)
    (h3 : isNotComputable ed.info.average_monthly_income = false) :
    VErr.incomeInsufficiency ∈ v1Errs ed txns := by
  unfold v1Errs
  rw [if_pos h1]
  simp [h2, h3]

/-! ### Facts about the Retry Controller loop -/

theorem autoRetryGo_le (v : ℕ → Bool) : ∀ b k rc, (autoRetryGo v b k rc).1 ≤ b + 1 := by
  intro b
  induction b with
  | zero => intro k rc; simp only [autoRetryGo]; split <;> simp
  | succ b ih =>
    intro k rc
    simp only [autoRetryGo]
    split
    · simp
    · have hle := ih (k + 1) (rc + 1)
      simp only []
      omega

theorem autoRetryGo_fail : ∀ b k rc,
    (autoRetryGo alwaysFail b k rc).2.2 = "Needs Human Review" := by
  intro b
  induction b with
  | zero => intro k rc; simp [autoRetryGo, alwaysFail]
  | succ b ih => intro k rc; simp [autoRetryGo, alwaysFail, ih]

/-! ### Facts about frequency detection and rounding -/

theorem rndHalfEven_intCast (n : ℤ) : rndHalfEven (n : ℚ) = n := by
  unfold rndHalfEven
  simp only [Int.floor_intCast, sub_self]
  norm_num

theorem round2_idem (q : ℚ) : round2 (round2 q) = round2 q := by
  unfold round2
  rw [div_mul_cancel₀ _ (by norm_num : (100 : ℚ) ≠ 0), rndHalfEven_intCast]

theorem dayGaps_nil : ∀ ds : List (Option ℤ),
    (∀ a ∈ ds, ∀ b ∈ ds, ∀ x y, a = some x → b = some y → x = y) →
    dayGaps ds = [] := by
  intro ds
  induction ds with
  | nil => intro _; rfl
  | cons a rest ih =>
    intro h
    cases rest with
    | nil => rfl
    | cons b rest2 =>
      have tail : dayGaps (b :: rest2) = [] := by
        refine ih fun x hx y hy => ?_
        exact h x (List.mem_cons_of_mem a hx) y (List.mem_cons_of_mem a hy)
      rcases a with _ | x
      · simp [dayGaps, tail]
      · rcases b with _ | y
        · simp [dayGaps, tail]
        · have hxy : x = y :=
            h (some x) (by simp) (some y) (by simp) x y rfl rfl
          subst hxy
          simp [dayGaps, tail]

theorem insertGroup_keys_sub {κ α : Type} [DecidableEq κ] (k : κ) (v : α) :
    ∀ gs : List (κ × List α),
      ∀ x ∈ (insertGroup k v gs).map Prod.fst, x = k ∨ x ∈ gs.map Prod.fst := by
  intro gs
  induction gs with
  | nil => intro x hx; simp [insertGroup] at hx; exact Or.inl hx
  | cons g rest ih =>
    intro x hx
    unfold insertGroup at hx
    split at hx
    · simp only [List.map_cons, List.mem_cons] at hx
      rcases hx with rfl | hx
      · exact Or.inr (by simp)
      · exact Or.inr (by simp [hx])
    · simp only [List.map_cons, List.mem_cons] at hx
      rcases hx with rfl | hx
      · exact Or.inr (by simp)
      · rcases ih x hx with h' | h'
        · exact Or.inl h'
        · exact Or.inr (by simp [h'])

theorem foldAG_keys (l : List CTxn) : ∀ gs : List (ℚ × List CTxn),
    ∀ x ∈ ((l.foldl (fun ags c => insertGroup (round2 c.amount) c ags) gs).map
      Prod.fst), x ∈ gs.map Prod.fst ∨ ∃ c ∈ l, x = round2 c.amount := by
  induction l with
  | nil => intro gs x hx; exact Or.inl hx
  | cons c cs ih =>
    intro gs x hx
    rw [List.foldl_cons] at hx
    rcases ih _ x hx with h | h
    · rcases insertGroup_keys_sub _ _ _ x h with rfl | h'
      · exact Or.inr ⟨c, List.mem_cons_self c cs, rfl⟩
      · exact Or.inl h'
    · rcases h with ⟨c', hc', rfl⟩
      exact Or.inr ⟨c', List.mem_cons_of_mem c hc', rfl⟩

theorem sameDay_dpf {l : List CTxn} (h : sameDatedDay l = true) :
    detectPaymentFrequency l = "monthly" := by
  unfold detectPaymentFrequency
  split
  · rfl
  · have hperm : List.Perm
        (List.insertionSort (fun a b => dateKeyLE a.date b.date = true) l) l :=
      List.perm_insertionSort _ l
    have hall : ∀ x ∈ l.filterMap CTxn.date, ∀ y ∈ l.filterMap CTxn.date, x = y := by
      intro x hx y hy
      unfold sameDatedDay at h
      cases hfm : l.filterMap CTxn.date with
      | nil => rw [hfm] at hx; cases hx
      | cons d ds =>
        rw [hfm] at h hx hy
        have hxd : x = d := by
          rcases List.mem_cons.mp hx with rfl | hx'
          · rfl
          · simpa using List.all_eq_true.mp h x hx'
        have hyd : y = d := by
          rcases List.mem_cons.mp hy with rfl | hy'
          · rfl
          · simpa using List.all_eq_true.mp h y hy'
        rw [hxd, hyd]
    have hgaps : dayGaps ((List.insertionSort
        (fun a b => dateKeyLE a.date b.date = true) l).map CTxn.date) = [] := by
      refine dayGaps_nil _ ?_
      intro a ha b hb x y hax hby
      rcases List.mem_map.mp ha with ⟨t, ht, rfl⟩
      rcases List.mem_map.mp hb with ⟨u, hu, rfl⟩
      have ht' : t ∈ l := hperm.subset ht
      have hu' : u ∈ l := hperm.subset hu
      exact hall x (List.mem_filterMap.mpr ⟨t, ht', hax⟩)
        y (List.mem_filterMap.mpr ⟨u, hu', hby⟩)
    simp [hgaps]

/-! ### Fact used by the amended revenue statement -/

theorem revenue_foldl (l : List Txn) : ∀ acc : ℚ,
    l.foldl (fun tot t => if decide (0 < t.amount) && !t.isInternal then tot + t.amount else tot) acc
      = acc + ((l.filter fun t => decide (0 < t.amount) && !t.isInternal).map Txn.amount).sum := by
  induction l with
  | nil => simp
  | cons t ts ih =>
    intro acc
    rw [List.foldl_cons, List.filter_cons]
    by_cases h : (decide (0 < t.amount) && !t.isInternal) = true
    · simp only [h, if_true, List.map_cons, List.sum_cons]
      rw [ih, add_assoc]
    · rw [Bool.not_eq_true] at h
      simp only [h, Bool.false_eq_true, if_false]
      rw [ih]

end LoopUW

namespace LoopUW

/-! ### Claim theorems -/

/-- C1 (counterexample): the amount-matching pass does not behave as
claimed — a debit with a same-day, same-magnitude credit on a different
account (a valid candidate of the pandas filter) is left completely
unmarked when neither description matches an explicit-transfer pattern,
instead of both being marked `is_internal_transfer` with symmetric
`matched_transfer_id`. -/
theorem c1_plain_amount_match_unmarked :
    isCandidate [] 2 c1TxnA c1TxnB = true
      ∧ (findInterAccountTransfers [c1TxnA, c1TxnB] 2 [] "").all
          (fun o => !o.is_internal_transfer
            && o.matched_transfer_id == none) = true := by
  decide

/-- C1 (amended): the amount-matching branch of
`find_inter_account_transfers` marks a pair only when one of the two
descriptions matches an explicit-transfer pattern (reason
`matched_amount_explicit`, not `matched_amount`); since STEP 1 already
placed every explicit-description row into `matched_ids` — excluding it
both as a processed row and as a candidate — that branch never executes:
every output row has `matched_transfer_id = None` and never carries an
amount-match reason. -/
theorem c1_amount_match_requires_explicit_and_never_fires :
    ∀ (txns : List Txn) (w : ℤ) (known : List String) (merchant : String),
      (findInterAccountTransfers txns w known merchant).all
        (fun o => (o.matched_transfer_id == none)
          && !(o.transfer_reason == some "matched_amount")
          && !(o.transfer_reason == some "matched_amount_explicit")) = true := by
  intro txns w known merchant
  unfold findInterAccountTransfers
  split
  · rfl
  · dsimp only
    have hinv : Step2Inv (sortByDate txns) known
        ((sortByDate txns).foldl (processRow (sortByDate txns) w known merchant)
          (step1 known (sortByDate txns) initMState)) := by
      refine foldl_preserve _ (Step2Inv (sortByDate txns) known) _ ?_ _
        (step1_inv known (sortByDate txns))
      exact fun s x hx h => processRow_step2Inv _ _ _ _ s x hx h
    obtain ⟨h1, h2, h3⟩ := hinv
    rw [List.all_eq_true]
    intro o ho
    rcases List.mem_map.mp ho with ⟨t, ht, rfl⟩
    dsimp only
    rw [h1 t.id]
    rcases h3 t.id with h | h | h <;> rw [h] <;> decide

/-- C2 (code bug): with two disjoint amount clusters (2×$100, 2×$200) for
lender `Acme Capital` and no payoff credit, both positions are stacked
with `stack_count = 2` — but adding a payoff credit for the lender
(`check_for_payoff` returns true on it) changes nothing:
`detect_lender_positions` never consults `check_for_payoff`, so the
positions are still marked stacked, contradicting the function's own
docstring and the spec. -/
theorem c2_stacking_not_suppressed_by_payoff :
    ((detectLenderPositions c2NoPayoff 2).map fun p => (p.is_stacked, p.stack_count))
        = [(true, 2), (true, 2)]
      ∧ checkForPayoff c2WithPayoff "Acme Capital" = true
      ∧ ((detectLenderPositions c2WithPayoff 2).map fun p => (p.is_stacked, p.stack_count))
        = [(true, 2), (true, 2)] := by
  refine ⟨by decide, by decide, by decide⟩

/-- C3 (counterexample): with claimed `total_monthly_payments = $10,000`
against payment debits computing to $10,501, `verify_extraction_math`
reports NO discrepancy at all — it passes with an empty error list,
because its tolerance divides by `max(claimed, computed, 1)`
(501/10501 ≈ 4.77% ≤ 5%), contradicting the claimed
discrepancy-of-severity-medium. -/
theorem c3_tolerance_counterexample :
    calculatePaymentTotal c3Txns10501 = 10501
      ∧ safeFloatV c3Claimed.info.total_monthly_payments = 10000
      ∧ verifyExtractionMath c3Claimed c3Txns10501 = (true, []) := by
  refine ⟨by decide, by decide, by decide⟩

/-- C3 (amended): for a positive claimed `total_monthly_payments` and a
nonempty transaction list, `verify_extraction_math` raises a payments
discrepancy exactly when
`|computed − claimed| / max(claimed, computed, 1) > 5%` — there is no
`$1` absolute floor and no severity; in particular claimed $10,000 passes
against both computed $10,499 and computed $10,501.  The Koncile
statement verifier's separate `_amounts_match` tolerance
(`$1` absolute or `1%` of the summary amount) also rejects the
claimed formula: it does not match 10,501 against 10,000. -/
theorem c3_tolerance_amended :
    (∀ (ed : ClaimedData) (txns : List Txn),
      0 < safeFloatV ed.info.total_monthly_payments →
      txns.isEmpty = false →
      (VErr.paymentsMismatch ∈ (verifyExtractionMath ed txns).2 ↔
        1/20 < |calculatePaymentTotal txns - safeFloatV ed.info.total_monthly_payments|
          / max (safeFloatV ed.info.total_monthly_payments)
              (max (calculatePaymentTotal txns) 1)))
      ∧ verifyExtractionMath c3Claimed c3Txns10499 = (true, [])
      ∧ verifyExtractionMath c3Claimed c3Txns10501 = (true, [])
      ∧ amountsMatch 10501 10000 = false := by
  refine ⟨?_, by decide, by decide, by decide⟩
  intro ed txns h hne
  have hv1 : VErr.paymentsMismatch ∉ v1Errs ed txns := by
    intro hm
    rcases mem_v1_sub ed txns _ hm with h' | h' <;> simp at h'
  have hv3 : VErr.paymentsMismatch ∉ v3Errs ed txns := by
    intro hm; have hh := mem_v3_sub ed txns _ hm; simp at hh
  have hv4 : VErr.paymentsMismatch ∉ v4Errs ed txns := by
    intro hm; have hh := mem_v4_sub ed txns _ hm; simp at hh
  have hv5 : VErr.paymentsMismatch ∉ v5Errs txns := by
    intro hm; have hh := mem_v5_sub txns _ hm; simp at hh
  unfold verifyExtractionMath
  rw [if_neg (by simp [hne])]
  dsimp only
  rw [← paymentsMismatch_v2_iff ed txns h]
  simp [List.mem_append, hv1, hv3, hv4, hv5]

/-- C3 (witness): the amended tolerance characterization instantiated at
the concrete claimed $10,000 / computed $10,501 input. -/
theorem c3_tolerance_amended_witness :
    0 < safeFloatV c3Claimed.info.total_monthly_payments
      ∧ c3Txns10501.isEmpty = false
      ∧ (VErr.paymentsMismatch ∈ (verifyExtractionMath c3Claimed c3Txns10501).2 ↔
          1/20 < |calculatePaymentTotal c3Txns10501
              - safeFloatV c3Claimed.info.total_monthly_payments|
            / max (safeFloatV c3Claimed.info.total_monthly_payments)
                (max (calculatePaymentTotal c3Txns10501) 1)) :=
  ⟨by decide, by decide,
    c3_tolerance_amended.1 c3Claimed c3Txns10501 (by decide) (by decide)⟩

/-- C4 (counterexample): a transaction whose `type` field says debit but
whose amount is positive IS counted as revenue by
`calculate_revenue_excluding_transfers` (and by the logic engine's income
filter), while the spec's direction-authoritative reading counts zero —
direction is not authoritative over the amount sign. -/
theorem c4_debit_direction_counted_as_revenue :
    c4Txn.ttype = "debit" ∧ c4Txn.isInternal = false
      ∧ calculateRevenueExcludingTransfers [c4Txn] = 100
      ∧ revenueSpecDirection [c4Txn] = 0
      ∧ logicEngineTotalIncome [c4Txn] = 100 := by
  refine ⟨by decide, by decide, by decide, by decide, by decide⟩

/-- C4 (amended): `calculate_revenue_excluding_transfers` computes the sum
of the amounts of exactly those transactions with a positive amount and
`is_internal_transfer=false`; the direction is decided by the amount's
sign alone, and the `type` field is ignored. -/
theorem c4_revenue_is_sign_based :
    ∀ txns : List Txn, calculateRevenueExcludingTransfers txns
      = ((txns.filter fun t => decide (0 < t.amount) && !t.isInternal).map
          Txn.amount).sum := by
  intro txns
  simpa [calculateRevenueExcludingTransfers] using revenue_foldl txns 0

/-- C5: for every input whose transaction ids are distinct, the matcher's
output relation is well-formed — every `matched_transfer_id` on A pointing
at B is mirrored by B pointing back at A with both flagged
`is_internal_transfer`, and no transaction is the matched partner of more
than one other transaction (matched ids are removed from the candidate
pool by construction). -/
theorem c5_transfer_match_wellformed :
    ∀ (txns : List Txn) (w : ℤ) (known : List String) (merchant : String),
      (txns.map Txn.id).Nodup →
      wellFormedMatches (findInterAccountTransfers txns w known merchant)
        = true := by
  intro txns w known merchant hnd
  unfold findInterAccountTransfers
  split
  · rfl
  · dsimp only
    have hsym : SymOK ((sortByDate txns).foldl
        (processRow (sortByDate txns) w known merchant)
        (step1 known (sortByDate txns) initMState)) := by
      refine foldl_preserve _ SymOK _ ?_ _ ?_
      · exact fun s x _ h => processRow_symOK _ _ _ _ s x h
      · intro i j hij
        rw [step1_matched] at hij
        cases hij
    have hperm : List.Perm (sortByDate txns) txns := List.perm_insertionSort _ _
    have hndout : ((sortByDate txns).map Txn.id).Nodup :=
      ((hperm.map Txn.id).nodup_iff).mpr hnd
    exact wellFormed_of_symOK (sortByDate txns) _ hsym hndout

/-- C5 (witness): the well-formedness theorem instantiated at a concrete
two-transaction input with distinct ids. -/
theorem c5_transfer_match_wellformed_witness :
    (c5Txns.map Txn.id).Nodup
      ∧ wellFormedMatches (findInterAccountTransfers c5Txns 2 [] "") = true :=
  ⟨by decide, c5_transfer_match_wellformed c5Txns 2 [] "" (by decide)⟩

/-- C6: the retry loop performs at most `max_retries + 1` extraction
attempts for any verifier behaviour; an always-failing verifier ends in
the terminal status "Needs Human Review", and a verifier that passes the
first attempt terminates immediately after one extraction with the
accepted status "Pending Approval" and zero retries. -/
theorem c6_retry_controller_bounded :
    (∀ (mr : ℕ) (verify : ℕ → Bool), (autoRetryExtraction mr verify).1 ≤ mr + 1)
      ∧ (∀ mr : ℕ, (autoRetryExtraction mr alwaysFail).2.2 = "Needs Human Review")
      ∧ (∀ (mr : ℕ) (verify : ℕ → Bool), verify 0 = true →
          autoRetryExtraction mr verify = (1, 0, "Pending Approval")) := by
  refine ⟨fun mr v => autoRetryGo_le v mr 0 0, fun mr => autoRetryGo_fail mr 0 0, ?_⟩
  intro mr v h
  simp only [autoRetryExtraction]
  unfold autoRetryGo
  simp [h]

/-- C6 (witness): the first-attempt-acceptance part instantiated at
`max_retries = 2` with the always-passing verifier. -/
theorem c6_retry_controller_bounded_witness :
    alwaysPass 0 = true
      ∧ autoRetryExtraction 2 alwaysPass = (1, 0, "Pending Approval") :=
  ⟨rfl, c6_retry_controller_bounded.2.2 2 alwaysPass rfl⟩

/-- C7: normalizing the four raw amount strings of the claim yields
1234.56, −500.00, −1234.56 and 1234.56 respectively; the two extra
conjuncts exercise the lone-comma rule (one comma with ≤2 trailing
digits is a decimal point, otherwise a thousands separator). -/
theorem c7_amount_normalization :
    sanitizeAmount "$1,234.56" = 1234.56
      ∧ sanitizeAmount "(500.00)" = -500
      ∧ sanitizeAmount "1,234.56-" = -1234.56
      ∧ sanitizeAmount "1.234,56" = 1234.56
      ∧ sanitizeAmount "1234,56" = 1234.56
      ∧ sanitizeAmount "1,2345" = 12345 := by
  refine ⟨by decide, by decide, by decide, by decide, by decide, by decide⟩

/-- C8: seven $500 `XYZ Capital` debits on seven consecutive business days
(the single weekend jump may fall between any two consecutive debits)
produce exactly one position: lender `Xyz Capital`, frequency daily,
`monthly_payment = 11000.00 = 500 × 22`, seven occurrences, not
stacked. -/
theorem c8_daily_position_detection :
    ∀ k : Fin 6, detectLenderPositions (c8Txns k) 2 = [c8Pos] := by
  decide

/-- C9: on a debit-only dataset, claiming a positive numeric
`average_monthly_income` (not marked "not_computable") produces a
data-insufficiency discrepancy and verification returns invalid — without
raising (the embedding is total on every such input); claiming
"not_computable" instead produces no such discrepancy. -/
theorem c9_data_insufficiency_rule :
    (∀ (ed : ClaimedData) (txns : List Txn),
      isDebitOnly txns = true →
      0 < safeFloatV ed.info.average_monthly_income →
      isNotComputable ed.info.average_monthly_income = false →
      VErr.incomeInsufficiency ∈ (verifyExtractionMath ed txns).2
        ∧ (verifyExtractionMath ed txns).1 = false)
      ∧ (∀ (ed : ClaimedData) (txns : List Txn),
          ed.info.average_monthly_income = FVal.notComputable →
          VErr.incomeInsufficiency ∉ (verifyExtractionMath ed txns).2) := by
  constructor
  · intro ed txns h1 h2 h3
    have hne := debitOnly_not_nil h1
    have hmem : VErr.incomeInsufficiency ∈ (verifyExtractionMath ed txns).2 := by
      unfold verifyExtractionMath
      rw [if_neg (by simp [hne])]
      dsimp only
      simp only [List.mem_append]
      exact Or.inl (Or.inl (Or.inl (Or.inl
        (incomeInsufficiency_in_v1 ed txns h1 h2 h3))))
    refine ⟨hmem, ?_⟩
    have hnonnil : (verifyExtractionMath ed txns).2 ≠ [] := List.ne_nil_of_mem hmem
    unfold verifyExtractionMath at hnonnil ⊢
    rw [if_neg (by simp [hne])] at hnonnil ⊢
    dsimp only at hnonnil ⊢
    simpa [List.isEmpty_iff] using hnonnil
  · intro ed txns h
    by_cases hne : txns.isEmpty
    · unfold verifyExtractionMath
      rw [if_pos hne]
      simp
    · unfold verifyExtractionMath
      rw [if_neg hne]
      dsimp only
      simp only [List.mem_append]
      rintro ((((hm | hm) | hm) | hm) | hm)
      · unfold v1Errs at hm
        rw [h] at hm
        simp [safeFloatV, isNotComputable] at hm
      · have hh := mem_v2_sub ed txns _ hm; simp at hh
      · have hh := mem_v3_sub ed txns _ hm; simp at hh
      · have hh := mem_v4_sub ed txns _ hm; simp at hh
      · have hh := mem_v5_sub txns _ hm; simp at hh

/-- C9 (witness): the data-insufficiency rule instantiated at a concrete
two-debit dataset with a claimed $5,000 average monthly income. -/
theorem c9_data_insufficiency_rule_witness :
    isDebitOnly c9Txns = true
      ∧ 0 < safeFloatV c9Claimed.info.average_monthly_income
      ∧ isNotComputable c9Claimed.info.average_monthly_income = false
      ∧ (VErr.incomeInsufficiency ∈ (verifyExtractionMath c9Claimed c9Txns).2
          ∧ (verifyExtractionMath c9Claimed c9Txns).1 = false) :=
  ⟨by decide, by decide, by decide,
    c9_data_insufficiency_rule.1 c9Claimed c9Txns (by decide) (by decide) (by decide)⟩

/-- C10: a cluster with fewer than two transactions, or whose dated
transactions all fall on one day, is classified monthly (never Daily),
and every position whose frequency is monthly has
`monthly_payment = amount` (the per-occurrence amount). -/
theorem c10_same_day_clusters_monthly :
    (∀ l : List CTxn, l.length < 2 → detectPaymentFrequency l = "monthly")
      ∧ (∀ l : List CTxn, sameDatedDay l = true →
          detectPaymentFrequency l = "monthly")
      ∧ (∀ (txns : List Txn) (minOcc : ℕ),
          (detectLenderPositions txns minOcc).all
            (fun p => p.frequency != "monthly"
              || p.monthly_payment == p.amount) = true) := by
  refine ⟨?_, fun l h => sameDay_dpf h, ?_⟩
  · intro l h
    unfold detectPaymentFrequency
    rw [if_pos h]
  · intro txns minOcc
    rw [List.all_eq_true]
    intro p hp
    unfold detectLenderPositions at hp
    split at hp
    · cases hp
    · dsimp only at hp
      rcases List.mem_flatMap.mp hp with ⟨g, hg, hpg⟩
      split at hpg
      · cases hpg
      · rcases List.mem_flatMap.mp hpg with ⟨ag, hag, hpag⟩
        split at hpag
        · cases hpag
        · rcases List.mem_singleton.mp hpag with rfl
          dsimp only
          by_cases hf : detectPaymentFrequency ag.2 = "monthly"
          · have hkey : ∃ c ∈ g.2, ag.1 = round2 c.amount := by
              have hx := foldAG_keys g.2 [] ag.1 (List.mem_map_of_mem Prod.fst hag)
              simpa using hx
            rcases hkey with ⟨c, -, hc⟩
            have hdm : ("monthly" : String) ≠ "daily" := by decide
            have hwm : ("monthly" : String) ≠ "weekly" := by decide
            rw [hf]
            simp only [hdm, hwm, if_false, bne_self_eq_false, Bool.false_or]
            rw [hc, round2_idem]
            simp
          · simp [hf]

/-- C10 (witness): the same-day rule instantiated at a concrete cluster of
three same-day $75 entries. -/
theorem c10_same_day_clusters_monthly_witness :
    sameDatedDay c10Cluster = true
      ∧ detectPaymentFrequency c10Cluster = "monthly" :=
  ⟨by decide, c10_same_day_clusters_monthly.2.1 c10Cluster (by decide)⟩

end LoopUW
